import Mathlib

/-!
Verification of the mkosi image-build pipeline (src/mkosi) against its
specification.  Each Python function relevant to a claim is shallowly
embedded as an executable Lean definition, translated line by line from
the source; theorems then settle the spec's claims about them.
-/

set_option maxHeartbeats 1000000

namespace Mkosi

/-- Output formats (src/mkosi/__init__.py, class OutputFormat).  The source's
`raw_gpt` is an alias for `raw_ext4` (both carry enum value 1) and is
therefore not a separate constructor. -/
inductive OutputFormat where
  | raw_ext4
  | raw_btrfs
  | raw_squashfs
  | directory
  | subvolume
  | tar
  | raw_xfs
deriving DecidableEq, Repr

/-- GPT type GUID for the ESP (src/mkosi/__init__.py line 110), embedded as the
canonical string form produced by Python's uuid.UUID formatting. -/
def GPT_ESP : String := "c12a7328-f81f-11d2-ba4b-00a0c93ec93b"

/-- GPT type GUID for swap (line 111). -/
def GPT_SWAP : String := "0657fd6d-a4ab-43c4-84e5-0933c84b4f4f"

/-- GPT type GUID for /home (line 112). -/
def GPT_HOME : String := "933ac7e1-2eb4-4f13-b844-0e14e2aef915"

/-- GPT type GUID for /srv (line 113). -/
def GPT_SRV : String := "3b8f8425-20e0-4f3b-907f-1a25a76f98e8"

/-- Native root partition type GUID: `gpt_root_native().root` on x86_64
(GPT_ROOT_X86_64, line 106; the embedding fixes platform.machine() to
"x86_64", the branch taken on the reference platform). -/
def gptRootNativeRoot : String := "4f68bce3-e8cd-4db1-96e7-fbcaf984b709"

/-- Native verity partition type GUID: `gpt_root_native().verity` on x86_64
(GPT_ROOT_X86_64_VERITY, line 115). -/
def gptRootNativeVerity : String := "2c7357ed-ebd2-46d9-aec1-23d437ec2bf5"

/-- GPT_HEADER_SIZE = 1024*1024 (src/mkosi/gpt.py line 26 and
src/mkosi/__init__.py). -/
def GPT_HEADER_SIZE : Nat := 1024 * 1024

/-- GPT_FOOTER_SIZE = 1024*1024 (src/mkosi/gpt.py line 27). -/
def GPT_FOOTER_SIZE : Nat := 1024 * 1024

/-- roundup512 (src/mkosi/__init__.py lines 170-171):
`(x + 511) & ~511` on a nonnegative Python int clears the low nine bits,
i.e. subtracts `(x + 511) % 512`. -/
def roundup512 (x : Nat) : Nat := (x + 511) - (x + 511) % 512

/-- The slice of CommandLineArguments (src/mkosi/__init__.py, argparse
namespace) that the verified functions read.  Sizes are byte counts,
`none` meaning the Python value None. -/
structure CommandLineArguments where
  bootable : Bool := false
  esp_size : Option Nat := none
  swap_size : Option Nat := none
  home_size : Option Nat := none
  srv_size : Option Nat := none
  root_size : Option Nat := none
  output_format : OutputFormat := .raw_ext4
  read_only : Bool := false
  compress : Bool := false
  verity : Bool := false
  encrypt : Option String := none
  incremental : Bool := false
  force_count : Nat := 0
  build_script : Option String := none
  password : Option String := none
  xz : Bool := false
  ran_sfdisk : Bool := false
  cache_path : Option String := none
deriving DecidableEq, Repr

/-! ## determine_partition_table (src/mkosi/__init__.py lines 375-428) -/

/-- Condition guarding the ESP block (line 381). -/
def espCond (args : CommandLineArguments) : Bool := args.bootable

/-- Condition guarding the swap block (line 389). -/
def swapCond (args : CommandLineArguments) : Bool := args.swap_size.isSome

/-- Condition guarding the home block (lines 400-401). -/
def homeCond (args : CommandLineArguments) : Bool :=
  args.output_format != OutputFormat.raw_btrfs && args.home_size.isSome

/-- Condition guarding the srv block (lines 400, 407). -/
def srvCond (args : CommandLineArguments) : Bool :=
  args.output_format != OutputFormat.raw_btrfs && args.srv_size.isSome

/-- Condition guarding the root row (line 413): every format except
raw_squashfs emits a "Root Partition" row. -/
def rootRowCond (args : CommandLineArguments) : Bool :=
  args.output_format != OutputFormat.raw_squashfs

/-- Table line emitted by the ESP block (line 382).  `getD 0` stands for the
Python `args.esp_size // 512`, which is only evaluated when bootable is set,
in which case load_args has filled esp_size in (line 3236). -/
def espRow (args : CommandLineArguments) : String :=
  "size=" ++ toString (args.esp_size.getD 0 / 512) ++ ", type=" ++ GPT_ESP ++
    ", name=\"ESP System Partition\""

/-- Table line emitted by the swap block (line 390). -/
def swapRow (args : CommandLineArguments) : String :=
  "size=" ++ toString (args.swap_size.getD 0 / 512) ++ ", type=" ++ GPT_SWAP ++
    ", name=\"Swap Partition\""

/-- Table line emitted by the home block (line 402). -/
def homeRow (args : CommandLineArguments) : String :=
  "size=" ++ toString (args.home_size.getD 0 / 512) ++ ", type=" ++ GPT_HOME ++
    ", name=\"Home Partition\""

/-- Table line emitted by the srv block (line 408). -/
def srvRow (args : CommandLineArguments) : String :=
  "size=" ++ toString (args.srv_size.getD 0 / 512) ++ ", type=" ++ GPT_SRV ++
    ", name=\"Server Data Partition\""

/-- Table line emitted by the root block (lines 414-416); note it has no
size= field (root takes the remaining space). -/
def rootRow (args : CommandLineArguments) : String :=
  "type=" ++ gptRootNativeRoot ++ ", attrs=" ++
    (if args.read_only && args.output_format != OutputFormat.raw_btrfs
     then "GUID:60" else "") ++
    ", name=\"Root Partition\""

/-- Result of determine_partition_table: the table body lines (the text after
"label: gpt\n", one entry per line), the partition-number assignments the
function stores into args, and run_sfdisk. -/
structure PartitionTableResult where
  rows : List String
  esp_partno : Option Nat
  swap_partno : Option Nat
  home_partno : Option Nat
  srv_partno : Option Nat
  root_partno : Nat
  verity_partno : Option Nat
  run_sfdisk : Bool
deriving DecidableEq, Repr

/-- determine_partition_table (lines 375-428).  The mutable counter `pn` of
the source is threaded explicitly: pnEsp is its value when the ESP block
runs (1), pnSwap its value when the swap block runs, and so on; root_partno
is assigned unconditionally (lines 419-420), even for raw_squashfs where no
root row is emitted. -/
def determinePartitionTable (args : CommandLineArguments) : PartitionTableResult :=
  let pnEsp := 1
  let pnSwap := if espCond args then pnEsp + 1 else pnEsp
  let pnHome := if swapCond args then pnSwap + 1 else pnSwap
  let pnSrv := if homeCond args then pnHome + 1 else pnHome
  let pnRoot := if srvCond args then pnSrv + 1 else pnSrv
  let pnVerity := pnRoot + 1
  { rows :=
      (if espCond args then [espRow args] else []) ++
      (if swapCond args then [swapRow args] else []) ++
      (if homeCond args then [homeRow args] else []) ++
      (if srvCond args then [srvRow args] else []) ++
      (if rootRowCond args then [rootRow args] else [])
  , esp_partno := if espCond args then some pnEsp else none
  , swap_partno := if swapCond args then some pnSwap else none
  , home_partno := if homeCond args then some pnHome else none
  , srv_partno := if srvCond args then some pnSrv else none
  , root_partno := pnRoot
  , verity_partno := if args.verity then some pnVerity else none
  , run_sfdisk :=
      espCond args || swapCond args || homeCond args || srvCond args ||
        rootRowCond args }

/-- The partition numbers assigned by determine_partition_table, listed in
the fixed slot order ESP, swap, home, srv, root, verity, absent slots
skipped. -/
def assignedPartnos (r : PartitionTableResult) : List Nat :=
  r.esp_partno.toList ++ r.swap_partno.toList ++ r.home_partno.toList ++
    r.srv_partno.toList ++ [r.root_partno] ++ r.verity_partno.toList

/-- The partition numbers of the data slots (ESP, swap, home, srv) only. -/
def dataPartnos (r : PartitionTableResult) : List Nat :=
  r.esp_partno.toList ++ r.swap_partno.toList ++ r.home_partno.toList ++
    r.srv_partno.toList

/-- C1: determine_partition_table assigns partition numbers contiguously from
1 in the fixed order ESP, swap, home, srv, root, verity; each slot is present
exactly when its configuring value is enabled (ESP iff bootable, swap iff
swap_size set, home/srv iff their size is set and the format is not
raw_btrfs, verity iff the verity flag is set); root_partno is always the next
free number after the data partitions; and for raw_squashfs no root row
appears in the table text although root_partno is still assigned. -/
theorem determine_partition_table_ordering (args : CommandLineArguments) :
    let r := determinePartitionTable args
    assignedPartnos r = List.range' 1 (assignedPartnos r).length ∧
    (r.esp_partno.isSome ↔ args.bootable = true) ∧
    (r.swap_partno.isSome ↔ args.swap_size.isSome = true) ∧
    (r.home_partno.isSome ↔
      (args.output_format ≠ OutputFormat.raw_btrfs ∧ args.home_size.isSome = true)) ∧
    (r.srv_partno.isSome ↔
      (args.output_format ≠ OutputFormat.raw_btrfs ∧ args.srv_size.isSome = true)) ∧
    (r.verity_partno.isSome ↔ args.verity = true) ∧
    r.root_partno = (dataPartnos r).length + 1 ∧
    r.rows.length = (dataPartnos r).length +
      (if args.output_format = OutputFormat.raw_squashfs then 0 else 1) := by
  obtain ⟨boot, esp, swap, home, srv, root, fmt, ro, comp, ver, enc, inc, fc,
    bs, pw, xz, ran, cp⟩ := args
  cases boot <;> cases swap <;> cases home <;> cases srv <;> cases ver <;>
    cases fmt <;>
      simp [determinePartitionTable, assignedPartnos, dataPartnos, espCond,
        swapCond, homeCond, srvCond, rootRowCond, List.range', Option.toList]


/-! ## Character-level string utilities

Python str operations used by the embedded functions, modelled over
`List Char` (structurally recursive, so concrete runs reduce inside the
kernel); `String` appears only at boundaries. -/

/-- Does `s` begin with `pat`?  (Python str.startswith.) -/
def startsWithL (pat s : List Char) : Bool :=
  match pat, s with
  | [], _ => true
  | _ :: _, [] => false
  | p :: ps, c :: cs => p == c && startsWithL ps cs

/-- Membership in Python's string.hexdigits. -/
def isHexDigitC (c : Char) : Bool :=
  c.isDigit || ('a' ≤ c && c ≤ 'f') || ('A' ≤ c && c ≤ 'F')

/-- str.replace(pat, "") for a fixed pattern: removes non-overlapping
left-to-right occurrences of `pat`. -/
def replaceAll (pat : List Char) : List Char → List Char
  | [] => []
  | c :: rest =>
    if startsWithL pat (c :: rest) then replaceAll pat (List.drop (pat.length - 1) rest)
    else c :: replaceAll pat rest
termination_by l => l.length
decreasing_by
  · simp only [List.length_drop, List.length_cons]; omega
  · simp only [List.length_cons]; omega

/-- str.strip('{}'): drop leading and trailing characters drawn from the
set containing the two brace characters. -/
def stripBraces (s : List Char) : List Char :=
  ((s.dropWhile fun c => c == '\x7b' || c == '\x7d').reverse.dropWhile
    fun c => c == '\x7b' || c == '\x7d').reverse

/-- str.strip() with no arguments: drop leading and trailing whitespace. -/
def pyStrip (s : List Char) : List Char :=
  ((s.dropWhile Char.isWhitespace).reverse.dropWhile Char.isWhitespace).reverse

/-- Python str.split(sep) for a single-character separator: split at every
occurrence, keeping empty chunks; the result is never empty. -/
def pySplitChar (sep : Char) : List Char → List (List Char)
  | [] => [[]]
  | c :: rest =>
    match pySplitChar sep rest with
    | [] => [[]]
    | y :: ys => if c == sep then [] :: y :: ys else (c :: y) :: ys

/-- sep.join(chunks) for a single-character separator. -/
def pyJoinChar (sep : Char) (l : List (List Char)) : List Char :=
  List.intercalate [sep] l

/-- Python `a, b = s.split(sep, 1)`: split at the first occurrence only;
`none` models the ValueError raised when `sep` does not occur. -/
def pySplitOnceChar (sep : Char) (s : List Char) : Option (List Char × List Char) :=
  match pySplitChar sep s with
  | [_] => none
  | x :: xs => some (x, pyJoinChar sep xs)
  | [] => none

/-- int(s) for the nonnegative decimal literals sfdisk dumps emit;
`none` models the ValueError on anything else. -/
def pyParseNat (s : List Char) : Option Nat :=
  if s ≠ [] ∧ s.all Char.isDigit then
    some (s.foldl (fun acc c => acc * 10 + (c.toNat - 48)) 0)
  else none

/-- Decimal rendering of a Nat, as Python str(int). -/
def natToChars (n : Nat) : List Char := Nat.toDigits 10 n

/-- UTF-8 encoding of one code point (str.encode("utf-8"), per char). -/
def utf8Enc (c : Char) : List Nat :=
  let n := c.toNat
  if n < 0x80 then [n]
  else if n < 0x800 then [0xC0 + n / 64, 0x80 + n % 64]
  else if n < 0x10000 then [0xE0 + n / 4096, 0x80 + n / 64 % 64, 0x80 + n % 64]
  else [0xF0 + n / 262144, 0x80 + n / 4096 % 64, 0x80 + n / 64 % 64, 0x80 + n % 64]

/-- Lowercase an ASCII hex digit, as the int(hex, 16) / "%032x" round-trip
inside Python uuid.UUID's str() does. -/
def hexToLower (c : Char) : Char := c.toLower

/-- Hyphenate a 32-hex-digit string into the canonical 8-4-4-4-12 form. -/
def uuidFormat (h : List Char) : List Char :=
  h.take 8 ++ '-' :: (h.drop 8).take 4 ++ '-' :: (h.drop 12).take 4 ++
    '-' :: (h.drop 16).take 4 ++ '-' :: h.drop 20

/-- Python `str(uuid.UUID(hex))`: CPython strips "urn:", "uuid:", braces
and hyphens, requires exactly 32 hex digits, parses them with int(hex, 16)
and re-renders the canonical lowercase hyphenated form; `none` models the
ValueError raise. -/
def pyUUIDChars (s : List Char) : Option (List Char) :=
  let t := replaceAll "uuid:".toList (replaceAll "urn:".toList s)
  let h := (stripBraces t).filter (· != '-')
  if h.length = 32 && h.all isHexDigitC then some (uuidFormat (h.map hexToLower))
  else none

/-! ## src/mkosi/gpt.py: quoting, Partition, read_partition_table -/

/-- Hex digit character for a nibble. -/
def hexChar (n : Nat) : Char := "0123456789abcdef".toList.getD n '0'

/-- sfdisk_quote_char (gpt.py lines 47-53): hex-escape dquote, backslash,
backtick, dollar and non-printable-ASCII bytes; `c` is a byte (< 256), so
"\x%02x" renders exactly two hex digits. -/
def sfdiskQuoteChar (c : Nat) : List Char :=
  if c = 0x22 ∨ c = 0x5c ∨ c = 0x60 ∨ c = 0x24 ∨ c < 0x20 ∨ c > 0x7e then
    '\\' :: 'x' :: [hexChar (c / 16 % 16), hexChar (c % 16)]
  else [Char.ofNat c]

/-- sfdisk_quote (gpt.py lines 56-59): quote the UTF-8 bytes of `s`. -/
def sfdiskQuote (s : List Char) : List Char :=
  '"' :: ((s.flatMap utf8Enc).map sfdiskQuoteChar).flatten ++ ['"']

/-- sfdisk_unquote (gpt.py lines 62-77).  The loop computes a decoded
string `ret`, but no statement ever returns it: the function's only
return is the final `return s`, so it returns its argument unchanged. -/
def sfdiskUnquote (s : List Char) : List Char := s

/-- Partition (gpt.py lines 80-87); strings are `List Char`, uuid.UUID
values are embedded as their canonical string form. -/
structure Partition where
  p_start : Option Nat := none
  p_size : Option Nat := none
  p_type : Option (List Char) := none
  p_uuid : Option (List Char) := none
  p_name : Option (List Char) := none
  p_attrs : Option (List Char) := none
  p_bootable : Bool := false
deriving DecidableEq, Repr, Inhabited

/-- Partition.__str__ (gpt.py lines 89-105). -/
def Partition.toStr (p : Partition) : List Char :=
  let fields : List (List Char) :=
    (match p.p_start with | some v => ["start=".toList ++ natToChars v] | none => []) ++
    (match p.p_size with | some v => ["size=".toList ++ natToChars v] | none => []) ++
    (match p.p_type with | some v => ["type=".toList ++ v] | none => []) ++
    (match p.p_uuid with | some v => ["uuid=".toList ++ v] | none => []) ++
    (match p.p_name with | some v => ["name=".toList ++ sfdiskQuote v] | none => []) ++
    (match p.p_attrs with | some v => ["attrs=".toList ++ v] | none => []) ++
    (if p.p_bootable then ["bootable".toList] else [])
  List.intercalate ", ".toList fields

/-- One iteration of the field loop of read_partition_table (gpt.py lines
131-155): all seven locals are re-initialized at the top of each iteration,
so the returned record reflects this field only.  The outer `none` models
an int() / uuid.UUID ValueError escaping the loop. -/
def parseField (f : List Char) : Option Partition := do
  let p_start : Option Nat ←
    if startsWithL "start=".toList f then
      match pyParseNat (f.drop 6) with | some n => some (some n) | none => none
    else some none
  let p_size : Option Nat ←
    if startsWithL "size=".toList f then
      match pyParseNat (f.drop 5) with | some n => some (some n) | none => none
    else some none
  let p_type : Option (List Char) ←
    if startsWithL "type=".toList f then
      match pyUUIDChars (f.drop 5) with | some u => some (some u) | none => none
    else some none
  let p_uuid : Option (List Char) ←
    if startsWithL "uuid=".toList f then
      match pyUUIDChars (f.drop 5) with | some u => some (some u) | none => none
    else some none
  let p_name : Option (List Char) :=
    if startsWithL "name=".toList f then some (sfdiskUnquote (f.drop 5)) else none
  let p_attrs : Option (List Char) :=
    if startsWithL "attrs=".toList f then some (f.drop 6) else none
  let p_bootable : Bool := f == "bootable".toList
  pure { p_start, p_size, p_type, p_uuid, p_name, p_attrs, p_bootable }

/-- Python dict insertion `table[name] = part`: replace in place when the
key exists, otherwise append (dicts preserve insertion order). -/
def listUpsert (table : List (List Char × Partition)) (k : List Char) (v : Partition) :
    List (List Char × Partition) :=
  if table.any (·.1 == k) then
    table.map fun e => if e.1 == k then (k, v) else e
  else table ++ [(k, v)]

/-- The line loop of read_partition_table (gpt.py lines 117-168), over the
decoded, newline-split stdout of `sfdisk --dump`.  Faithful to the source:
`partition` (line 130) stays the default Partition, the per-line entry is
built from the last field iteration's locals (lines 157-163), and the
last_sector update (lines 165-168) tests the untouched `partition`. -/
def readPTLoop (inBody : Bool) (table : List (List Char × Partition)) (lastSector : Nat) :
    List (List Char) → Option (List (List Char × Partition) × Nat)
  | [] => some (table, lastSector * 512)
  | line :: restLines =>
    let stripped := pyStrip line
    if stripped = [] then readPTLoop true table lastSector restLines
    else if !inBody then readPTLoop inBody table lastSector restLines
    else do
      let (name, rest) ← pySplitOnceChar ':' stripped
      let fields := pySplitChar ',' rest
      let part ← fields.foldlM (fun _ f => parseField (pyStrip f)) ({} : Partition)
      let partition : Partition := {}
      let lastSector' :=
        match partition.p_start, partition.p_size with
        | some st, some sz => if st + sz > lastSector then st + sz else lastSector
        | _, _ => lastSector
      readPTLoop inBody (listUpsert table name part) lastSector' restLines

/-- read_partition_table (gpt.py lines 108-170), as a function of the dump
text's lines; returns the table dict and `last_sector * 512`. -/
def readPartitionTable (lines : List (List Char)) :
    Option (List (List Char × Partition) × Nat) :=
  readPTLoop false [] 0 lines

/-- write_partition_table (gpt.py lines 172-179) serializes each table
value via Partition.__str__; a dump of the resulting device lists each
partition as "device-name : fields".  These are the dump lines the
round-trip claim re-parses. -/
def dumpLines (table : List (List Char × Partition)) : List (List Char) :=
  "label: gpt".toList :: [] :: table.map fun e => e.1 ++ " : ".toList ++ e.2.toStr

/-- The {size, type, name} observation tuple of the round-trip claim. -/
def sizeTypeName (p : Partition) : Option Nat × Option (List Char) × Option (List Char) :=
  (p.p_size, p.p_type, p.p_name)

/-- C10: read_partition_table always reports 0 as the last-allocated byte
offset: the update of last_sector is guarded on the default-constructed
`partition` whose p_start is None, so it never fires. -/
theorem read_partition_table_offset_zero (lines : List (List Char))
    (tbl : List (List Char × Partition)) (off : Nat)
    (h : readPartitionTable lines = some (tbl, off)) : off = 0 := by
  suffices H : ∀ ls (inBody : Bool) table,
      readPTLoop inBody table 0 ls = some (tbl, off) → off = 0 by
    exact H lines false [] h
  intro ls
  induction ls with
  | nil =>
    intro inBody table h
    simp [readPTLoop] at h
    omega
  | cons line rest ih =>
    intro inBody table h
    simp only [readPTLoop] at h
    by_cases h1 : pyStrip line = []
    · simp [h1] at h
      exact ih _ _ h
    · simp [h1] at h
      by_cases h2 : inBody
      · simp [h2] at h
        rcases hsplit : pySplitOnceChar ':' (pyStrip line) with _ | ⟨nm, restStr⟩ <;>
          simp [hsplit, bind] at h
        rcases hpart : (pySplitChar ',' restStr).foldlM
            (fun _ f => parseField (pyStrip f)) ({} : Partition) with _ | part <;>
          simp [hpart] at h
        exact ih _ _ h
      · simp [h2] at h
        exact ih _ _ h

/-- Witness dump for read_partition_table: one partition line carrying
explicit start= and size= fields. -/
def witnessDump : List (List Char) :=
  ["label: gpt".toList, [], "/dev/loop0p1 : start=2048, size=100".toList]

/-- Witness for C10: the concrete dump parses, and the theorem applies:
despite start+size = 2148 sectors, the reported byte offset is 0. -/
theorem read_partition_table_offset_zero_witness : (0 : Nat) = 0 :=
  read_partition_table_offset_zero witnessDump
    [("/dev/loop0p1 ".toList, { p_size := some 100 })] 0 (by decide)

/-- Concrete table for the round-trip check: one partition with a size, a
comma-free name, and no other fields. -/
def cexTable : List (List Char × Partition) :=
  [("/dev/loop0p1".toList, { p_size := some 200, p_name := some "foo".toList })]

/-- C2 fails on the code: re-parsing the serialized dump of `cexTable` does
not preserve the {size, type, name} tuples.  The field loop of
read_partition_table re-initializes its locals on every iteration, so only
the final field of each line (here name=) survives, and sfdisk_unquote
returns its argument verbatim, quotes included. -/
theorem read_partition_table_roundtrip_fails :
    (readPartitionTable (dumpLines cexTable)).map
        (fun r => r.1.map fun e => sizeTypeName e.2) ≠
      some (cexTable.map fun e => sizeTypeName e.2) := by decide

/-! ## insert_partition (src/mkosi/__init__.py lines 2001-2051) -/

/-- The observable effects of insert_partition: the sfdisk input text (as
its lines), the appended row with the sector count written into its size=
field, the size the backing file is truncated to (line 2016), and the
function's return value (line 2051). -/
structure InsertPartitionResult where
  tableLines : List String
  newRow : String
  newRowSizeSectors : Nat
  truncateTo : Nat
  returnedBlobSize : Nat
deriving DecidableEq, Repr

/-- insert_partition (lines 2001-2051).  `readState` stands for the result
of the read_partition_table(loopdev) call of line 2004 (the __init__.py
variant returning raw table lines and a byte offset), used only when
args.ran_sfdisk; `blobFileSize` is os.stat(blob.name).st_size.  The LUKS
re-format/dd phase (lines 2038-2047) only shells out and is not part of
the table/size computation modelled here. -/
def insertPartition (args : CommandLineArguments) (readState : List String × Nat)
    (blobFileSize : Nat) (name typeUuid : String) (uuidArg : Option String) :
    InsertPartitionResult :=
  let (old_table, last_partition_sector) :=
    if args.ran_sfdisk then readState else ([], GPT_HEADER_SIZE)
  let blob_size := roundup512 blobFileSize
  let luks_extra : Nat := if args.encrypt = some "all" then 2 * 1024 * 1024 else 0
  let new_size := last_partition_sector + blob_size + luks_extra + GPT_FOOTER_SIZE
  let sizeSectors := (blob_size + luks_extra) / 512
  let newRow :=
    (match uuidArg with | some u => "uuid=" ++ u ++ ", " | none => "") ++
      "size=" ++ toString sizeSectors ++ ", type=" ++ typeUuid ++
      ", attrs=GUID:60, name=\"" ++ name ++ "\""
  { tableLines := "label: gpt" :: (old_table ++ [newRow])
  , newRow := newRow
  , newRowSizeSectors := sizeSectors
  , truncateTo := new_size
  , returnedBlobSize := blob_size }

/-- C3: insert_partition appends exactly one row, whose recorded size in
sectors corresponds to roundup512(blobSize) + luksReserve bytes, with
luksReserve = 2 MiB exactly when encrypt is "all"; the backing file is
truncated to the last allocated byte offset (lastSector*512, or the 1 MiB
GPT header when no table was written yet) plus that size plus the 1 MiB
GPT footer; the returned value is roundup512(blobSize). -/
theorem insert_partition_size (args : CommandLineArguments) (oldTable : List String)
    (lastSector blobFileSize : Nat) (name typeUuid : String)
    (uuidArg : Option String) :
    let luksReserve : Nat := if args.encrypt = some "all" then 2 * 1024 * 1024 else 0
    let r := insertPartition args (oldTable, lastSector * 512) blobFileSize name
        typeUuid uuidArg
    r.tableLines = "label: gpt" ::
        ((if args.ran_sfdisk then oldTable else []) ++ [r.newRow]) ∧
    r.newRowSizeSectors * 512 = roundup512 blobFileSize + luksReserve ∧
    r.truncateTo = (if args.ran_sfdisk then lastSector * 512 else GPT_HEADER_SIZE) +
        roundup512 blobFileSize + luksReserve + GPT_FOOTER_SIZE ∧
    r.returnedBlobSize = roundup512 blobFileSize := by
  by_cases hr : args.ran_sfdisk <;>
    by_cases he : args.encrypt = some "all" <;>
      refine ⟨by simp [insertPartition, hr, he], ?_, by simp [insertPartition, hr, he],
        by simp [insertPartition, hr, he]⟩ <;>
        simp only [insertPartition, hr, he, roundup512, if_true, if_false,
          Bool.false_eq_true, if_neg, if_pos] <;>
        omega

/-! ## make_verity, patch_root_uuid, insert_verity
(src/mkosi/__init__.py lines 2063-2107) -/

/-- make_verity (lines 2063-2079).  `verityBlobSize` stands for the size of
the temp file veritysetup fills, `stdoutLines` for the decoded,
newline-split stdout of `veritysetup format`.  Returns the (blob,
root_hash) pair; the outer `none` models the `raise ValueError` of line
2079 when no "Root hash:" line is present. -/
def makeVerity (args : CommandLineArguments) (runBuildScript forCache : Bool)
    (verityBlobSize : Nat) (stdoutLines : List (List Char)) :
    Option (Option Nat × Option (List Char)) :=
  if runBuildScript || !args.verity then some (none, none)
  else if forCache then some (none, none)
  else
    match stdoutLines.find? (fun l => startsWithL "Root hash:".toList l) with
    | some line => some (some verityBlobSize, some (pyStrip (line.drop 10)))
    | none => none

/-- patch_root_uuid (lines 2095-2107): the sfdisk --part-uuid invocation it
issues, as (partition number, formatted UUID); `none` when the function
returns without doing anything. -/
def patchRootUuid (rootPartno : Nat) (rootHash : Option (List Char))
    (forCache : Bool) : Option (Nat × Option (List Char)) :=
  match rootHash with
  | none => none
  | some h =>
    if forCache then none
    else some (rootPartno, pyUUIDChars (h.take 32))

/-- insert_verity (lines 2081-2093): computes the verity partition UUID from
the last 32 hex characters of the root hash and delegates to
insert_partition; `none` when the function returns without doing
anything. -/
def insertVerity (args : CommandLineArguments) (readState : List String × Nat)
    (verity : Option Nat) (_verityPartno : Nat) (rootHash : List Char)
    (forCache : Bool) : Option (Option (List Char) × InsertPartitionResult) :=
  match verity with
  | none => none
  | some blobSize =>
    if forCache then none
    else
      let u := pyUUIDChars (rootHash.drop (rootHash.length - 32))
      some (u, insertPartition args readState blobSize "Verity Partition"
        gptRootNativeVerity (u.map List.asString))

/-- Characters of a matched pattern occur in the matching string. -/
theorem mem_of_startsWithL {pat s : List Char} (h : startsWithL pat s = true) :
    ∀ x ∈ pat, x ∈ s := by
  induction pat generalizing s with
  | nil => simp
  | cons p ps ih =>
    cases s with
    | nil => simp [startsWithL] at h
    | cons c cs =>
      simp only [startsWithL, Bool.and_eq_true, beq_iff_eq] at h
      intro x hx
      rcases List.mem_cons.mp hx with hx | hx
      · subst hx; rw [h.1]; exact List.mem_cons_self _ _
      · exact List.mem_cons_of_mem _ (ih h.2 x hx)

/-- replaceAll is the identity when some pattern character never occurs in
the subject string. -/
theorem replaceAll_eq_self (pat : List Char) {ch : Char} (hch : ch ∈ pat) :
    ∀ s : List Char, ch ∉ s → replaceAll pat s = s := by
  intro s
  induction s with
  | nil => intro _; simp [replaceAll]
  | cons c rest ih =>
    intro hs
    rw [replaceAll]
    rw [if_neg]
    · rw [ih fun hm => hs (List.mem_cons_of_mem _ hm)]
    · intro hsw
      exact hs (mem_of_startsWithL hsw ch hch)

/-- dropWhile is the identity when no element satisfies the predicate. -/
theorem dropWhile_eq_self {p : Char → Bool} {s : List Char}
    (h : ∀ c ∈ s, p c = false) : s.dropWhile p = s := by
  cases s with
  | nil => rfl
  | cons c cs => simp [List.dropWhile_cons, h c (List.mem_cons_self _ _)]

/-- stripBraces is the identity on brace-free strings. -/
theorem stripBraces_eq_self {s : List Char}
    (h : ∀ c ∈ s, (c == '\x7b' || c == '\x7d') = false) : stripBraces s = s := by
  unfold stripBraces
  rw [dropWhile_eq_self h, dropWhile_eq_self, List.reverse_reverse]
  intro c hc
  exact h c (List.mem_reverse.mp hc)

/-- On a 32-hex-digit input, pyUUIDChars succeeds and produces the
canonical lowercase hyphenated form of those digits. -/
theorem pyUUIDChars_of_hex {h : List Char} (hlen : h.length = 32)
    (hhex : h.all isHexDigitC = true) :
    pyUUIDChars h = some (uuidFormat (h.map hexToLower)) := by
  have hmem : ∀ c ∈ h, isHexDigitC c = true := List.all_eq_true.mp hhex
  have hcolon : ':' ∉ h := fun hm => by
    have := hmem ':' hm
    exact absurd this (by decide)
  have e1 : replaceAll "urn:".toList h = h :=
    replaceAll_eq_self "urn:".toList (by decide) h hcolon
  have e2 : replaceAll "uuid:".toList h = h :=
    replaceAll_eq_self "uuid:".toList (by decide) h hcolon
  have e3 : stripBraces h = h := by
    refine stripBraces_eq_self fun c hc => ?_
    have hx := hmem c hc
    rcases eq_or_ne c '\x7b' with h7 | h7
    · subst h7; exact absurd hx (by decide)
    rcases eq_or_ne c '\x7d' with h8 | h8
    · subst h8; exact absurd hx (by decide)
    simp [beq_eq_false_iff_ne, h7, h8]
  have e4 : h.filter (· != '-') = h := by
    refine List.filter_eq_self.mpr fun c hc => ?_
    have hx := hmem c hc
    rcases eq_or_ne c '-' with h9 | h9
    · subst h9; exact absurd hx (by decide)
    simp [bne_iff_ne, h9]
  simp only [pyUUIDChars, e1, e2, e3, e4]
  simp [hlen, hhex]

/-- C4: given a 64-hex-character root hash, patch_root_uuid issues the
sfdisk --part-uuid call with UUID(hash[:32]) for the root partition, and
insert_verity passes UUID(hash[-32:]) as the UUID of the inserted verity
partition; both are no-ops when the root hash (respectively the verity
blob, which make_verity produces exactly when it produces a root hash) is
absent or during a for_cache pass. -/
theorem verity_uuid_derivation (args : CommandLineArguments)
    (readState : List String × Nat) (rootPartno vp blobSize vbs : Nat)
    (stdoutLines : List (List Char)) (h : List Char) (rh : Option (List Char))
    (fc rbs : Bool) (hlen : h.length = 64) (hhex : h.all isHexDigitC = true) :
    patchRootUuid rootPartno (some h) false =
      some (rootPartno, some (uuidFormat ((h.take 32).map hexToLower))) ∧
    (insertVerity args readState (some blobSize) vp h false).map Prod.fst =
      some (some (uuidFormat ((h.drop 32).map hexToLower))) ∧
    patchRootUuid rootPartno none fc = none ∧
    patchRootUuid rootPartno rh true = none ∧
    insertVerity args readState none vp h fc = none ∧
    insertVerity args readState (some blobSize) vp h true = none ∧
    ((makeVerity args rbs fc vbs stdoutLines).getD (none, none)).1.isSome =
      ((makeVerity args rbs fc vbs stdoutLines).getD (none, none)).2.isSome := by
  have hhexmem := List.all_eq_true.mp hhex
  refine ⟨?_, ?_, rfl, ?_, rfl, rfl, ?_⟩
  · have htake : pyUUIDChars (h.take 32) = some (uuidFormat ((h.take 32).map hexToLower)) := by
      refine pyUUIDChars_of_hex ?_ ?_
      · simp [List.length_take, hlen]
      · exact List.all_eq_true.mpr fun c hc => hhexmem c (List.take_subset _ _ hc)
    simp [patchRootUuid, htake]
  · have hdroplen : (h.drop 32).length = 32 := by simp [List.length_drop, hlen]
    have hdrop : pyUUIDChars (h.drop 32) = some (uuidFormat ((h.drop 32).map hexToLower)) := by
      refine pyUUIDChars_of_hex hdroplen ?_
      exact List.all_eq_true.mpr fun c hc => hhexmem c (List.drop_subset _ _ hc)
    simp [insertVerity, hlen, hdrop]
  · cases rh <;> simp [patchRootUuid]
  · unfold makeVerity
    split
    · rfl
    · split
      · rfl
      · split <;> rfl

/-- Witness hash: 64 hex characters. -/
def witnessHash : List Char :=
  "0123456789abcdef0123456789abcdef0123456789abcdef0123456789abcdef".toList

/-- Witness for C4: the theorem applied at a concrete 64-hex hash; the root
partition UUID embeds its first 32 hex digits. -/
theorem verity_uuid_derivation_witness :
    patchRootUuid 5 (some witnessHash) false =
      some (5, some (uuidFormat ((witnessHash.take 32).map hexToLower))) :=
  (verity_uuid_derivation {} ([], 0) 5 6 4096 0 [] witnessHash none false false
    (by decide) (by decide)).1

/-! ## need_cache_images and the cache branch of build_stuff
(src/mkosi/__init__.py lines 3559-3567 and 3590-3623) -/

/-- need_cache_images (lines 3559-3567); `preDevExists` / `preInstExists`
stand for os.path.exists on args.cache_pre_dev / args.cache_pre_inst. -/
def needCacheImages (args : CommandLineArguments)
    (preDevExists preInstExists : Bool) : Bool :=
  if !args.incremental then false
  else if args.force_count > 1 then true
  else !preDevExists || !preInstExists

/-- The build_image invocations issued by the cache-generation branch of
build_stuff (lines 3603-3623), as (run_build_script, for_cache) pairs: the
branch runs only under need_cache_images, and the pre-dev pass only when a
build script is configured. -/
def buildStuffCachePasses (args : CommandLineArguments)
    (preDevExists preInstExists : Bool) : List (Bool × Bool) :=
  if needCacheImages args preDevExists preInstExists then
    (if args.build_script.isSome then [(true, true)] else []) ++ [(false, true)]
  else []

/-- C5: need_cache_images is true iff incremental mode is on and
(force_count > 1 or a cache file is missing); with incremental on,
force_count 0 and both cache files present it is false and the
cache-generation branch of build_stuff performs zero build passes. -/
theorem need_cache_images_iff (args : CommandLineArguments) (d i : Bool) :
    needCacheImages args d i =
      (args.incremental && (decide (args.force_count > 1) || !d || !i)) ∧
    needCacheImages { args with incremental := true, force_count := 0 } true true =
      false ∧
    buildStuffCachePasses { args with incremental := true, force_count := 0 }
      true true = [] := by
  refine ⟨?_, by simp [needCacheImages], by simp [buildStuffCachePasses, needCacheImages]⟩
  cases hinc : args.incremental <;>
    by_cases hf : args.force_count > 1 <;>
      simp [needCacheImages, hinc, hf]

/-! ## set_root_password (src/mkosi/__init__.py lines 1689-1707) -/

/-- The characters of "root". -/
def rootChars : List Char := ['r', 'o', 'o', 't']

/-- The characters of "root:", the line test of lines 1700 and 1706. -/
def rootColonChars : List Char := ['r', 'o', 'o', 't', ':']

/-- patch_file (lines 893-903): write every line of the file through
line_rewriter (metadata copying and the rename are filesystem plumbing). -/
def patchFile (lineRewriter : List Char → List Char)
    (lines : List (List Char)) : List (List Char) :=
  lines.map lineRewriter

/-- The `jj` lambda of line 1699: on lines starting with "root:", rejoin
"root", an empty second field, and the split line's remaining fields. -/
def deletePasswordLine (line : List Char) : List Char :=
  if startsWithL rootColonChars line then
    pyJoinChar ':' (rootChars :: [] :: (pySplitChar ':' line).drop 2)
  else line

/-- The `jj` lambda of line 1705; `hashed` stands for
crypt.crypt(args.password, crypt.mksalt(crypt.METHOD_SHA512)). -/
def setPasswordLine (hashed : List Char) (line : List Char) : List Char :=
  if startsWithL rootColonChars line then
    pyJoinChar ':' (rootChars :: hashed :: (pySplitChar ':' line).drop 2)
  else line

/-- set_root_password (lines 1689-1707) acting on the line lists of
etc/passwd and etc/shadow; returns the new (passwd, shadow) contents.
crypt is an external capability: its result is the `hashed` parameter. -/
def setRootPassword (password : Option (List Char)) (hashed : List Char)
    (runBuildScript forCache : Bool) (passwd shadow : List (List Char)) :
    List (List Char) × List (List Char) :=
  if runBuildScript then (passwd, shadow)
  else if forCache then (passwd, shadow)
  else
    match password with
    | some p =>
      if p = [] then (patchFile deletePasswordLine passwd, shadow)
      else (passwd, patchFile (setPasswordLine hashed) shadow)
    | none => (passwd, shadow)

/-- The spec's phrasing of the password-delete rewrite: the second
colon-delimited field (index 1) replaced by the empty string, everything
else untouched. -/
def specDeleteLine (line : List Char) : List Char :=
  if startsWithL rootColonChars line then
    pyJoinChar ':' ((pySplitChar ':' line).set 1 [])
  else line

/-- The spec's phrasing of the password-set rewrite: the second
colon-delimited field replaced by the crypt hash. -/
def specSetLine (hashed : List Char) (line : List Char) : List Char :=
  if startsWithL rootColonChars line then
    pyJoinChar ':' ((pySplitChar ':' line).set 1 hashed)
  else line

/-- pySplitChar never returns the empty list. -/
theorem pySplitChar_ne_nil (sep : Char) (s : List Char) : pySplitChar sep s ≠ [] := by
  cases s with
  | nil => simp [pySplitChar]
  | cons c rest =>
    simp only [pySplitChar]
    rcases h : pySplitChar sep rest with _ | ⟨y, ys⟩
    · simp
    · split
      · simp
      · split <;> simp

/-- Splitting a line that starts with "root:" on colons yields "root"
followed by the split of the remainder. -/
theorem pySplitChar_root {line : List Char}
    (h : startsWithL rootColonChars line = true) :
    pySplitChar ':' line = rootChars :: pySplitChar ':' (line.drop 5) := by
  rcases line with _ | ⟨c1, _ | ⟨c2, _ | ⟨c3, _ | ⟨c4, _ | ⟨c5, tl⟩⟩⟩⟩⟩ <;>
    simp only [rootColonChars, startsWithL, Bool.and_eq_true, beq_iff_eq,
      Bool.and_false, Bool.false_eq_true] at h
  obtain ⟨h1, h2, h3, h4, h5, -⟩ := h
  subst h1; subst h2; subst h3; subst h4; subst h5
  obtain ⟨y, ys, hys⟩ : ∃ y ys, pySplitChar ':' tl = y :: ys := by
    rcases hq : pySplitChar ':' tl with _ | ⟨y, ys⟩
    · exact absurd hq (pySplitChar_ne_nil _ _)
    · exact ⟨y, ys, rfl⟩
  simp [pySplitChar, hys, rootChars]

/-- The code's delete rewrite coincides with the spec's "replace the
second field" formulation. -/
theorem deletePasswordLine_eq_spec (line : List Char) :
    deletePasswordLine line = specDeleteLine line := by
  unfold deletePasswordLine specDeleteLine
  by_cases h : startsWithL rootColonChars line = true
  · rw [if_pos h, if_pos h, pySplitChar_root h]
    obtain ⟨y, ys, hys⟩ : ∃ y ys, pySplitChar ':' (line.drop 5) = y :: ys := by
      rcases hq : pySplitChar ':' (line.drop 5) with _ | ⟨y, ys⟩
      · exact absurd hq (pySplitChar_ne_nil _ _)
      · exact ⟨y, ys, rfl⟩
    rw [hys]
    rfl
  · rw [if_neg h, if_neg h]

/-- The code's set rewrite coincides with the spec's formulation. -/
theorem setPasswordLine_eq_spec (hashed line : List Char) :
    setPasswordLine hashed line = specSetLine hashed line := by
  unfold setPasswordLine specSetLine
  by_cases h : startsWithL rootColonChars line = true
  · rw [if_pos h, if_pos h, pySplitChar_root h]
    obtain ⟨y, ys, hys⟩ : ∃ y ys, pySplitChar ':' (line.drop 5) = y :: ys := by
      rcases hq : pySplitChar ':' (line.drop 5) with _ | ⟨y, ys⟩
      · exact absurd hq (pySplitChar_ne_nil _ _)
      · exact ⟨y, ys, rfl⟩
    rw [hys]
    rfl
  · rw [if_neg h, if_neg h]

/-- C6: set_root_password is three-way.  Outside build-script and
for_cache passes: the empty password rewrites etc/passwd, replacing the
second colon-delimited field of every "root:"-line with the empty string
and leaving every other line (and etc/shadow) unchanged; a non-empty
password rewrites etc/shadow the same way with the SHA-512 crypt of the
password; password None touches neither file, as do build-script and
for_cache passes. -/
theorem set_root_password_three_way (hashed : List Char)
    (passwd shadow : List (List Char)) (p : List Char) (rbs fc : Bool) :
    setRootPassword (some []) hashed false false passwd shadow =
      (passwd.map specDeleteLine, shadow) ∧
    setRootPassword (some p) hashed false false passwd shadow =
      (if p = [] then (passwd.map specDeleteLine, shadow)
       else (passwd, shadow.map (specSetLine hashed))) ∧
    setRootPassword none hashed rbs fc passwd shadow = (passwd, shadow) ∧
    setRootPassword (some p) hashed true fc passwd shadow = (passwd, shadow) ∧
    setRootPassword (some p) hashed rbs true passwd shadow = (passwd, shadow) := by
  have hdel : deletePasswordLine = specDeleteLine := funext deletePasswordLine_eq_spec
  have hset : setPasswordLine hashed = specSetLine hashed :=
    funext (setPasswordLine_eq_spec hashed)
  refine ⟨?_, ?_, ?_, ?_, ?_⟩
  · simp [setRootPassword, patchFile, hdel]
  · by_cases hp : p = [] <;> simp [setRootPassword, patchFile, hdel, hset, hp]
  · cases rbs <;> cases fc <;> simp [setRootPassword]
  · simp [setRootPassword]
  · cases rbs <;> simp [setRootPassword]

/-! ## Format-driven forcing in load_args
(src/mkosi/__init__.py lines 3176-3186 and 3224-3237) -/

/-- The slice of load_args that resolves format-implied settings: lines
3176-3186 (tar forces xz; raw_squashfs forces read_only, compress and a
null root_size; verity forces read_only) followed by the root_size
defaulting of lines 3230-3234 (parse_bytes maps None to None, and only
ext4/btrfs/xfs refill a missing root_size).  No later statement of
load_args touches read_only, compress or root_size. -/
def loadArgsFormatResolution (args : CommandLineArguments) : CommandLineArguments :=
  let a1 := if args.output_format = OutputFormat.tar then { args with xz := true }
    else args
  let a2 := if a1.output_format = OutputFormat.raw_squashfs then
      { a1 with read_only := true, compress := true, root_size := none }
    else a1
  let a3 := if a2.verity then { a2 with read_only := true } else a2
  let a4 := if (a3.output_format = OutputFormat.raw_ext4 ∨
        a3.output_format = OutputFormat.raw_btrfs) ∧ a3.root_size = none then
      { a3 with root_size := some (1024 * 1024 * 1024) }
    else a3
  let a5 := if a4.output_format = OutputFormat.raw_xfs ∧ a4.root_size = none then
      { a4 with root_size := some (1300 * 1024 * 1024) }
    else a4
  a5

/-- C8: selecting raw_squashfs forces read_only and compress to true and
root_size to null regardless of the user-supplied values, and enabling
verity forces read_only to true. -/
theorem load_args_format_forcing (args : CommandLineArguments) :
    (loadArgsFormatResolution { args with output_format := .raw_squashfs }).read_only =
      true ∧
    (loadArgsFormatResolution { args with output_format := .raw_squashfs }).compress =
      true ∧
    (loadArgsFormatResolution { args with output_format := .raw_squashfs }).root_size =
      none ∧
    (loadArgsFormatResolution { args with verity := true }).read_only = true := by
  refine ⟨?_, ?_, ?_, ?_⟩
  · cases hv : args.verity <;> simp [loadArgsFormatResolution, hv]
  · cases hv : args.verity <;> simp [loadArgsFormatResolution, hv]
  · cases hv : args.verity <;> simp [loadArgsFormatResolution, hv]
  · cases hf : args.output_format <;> cases hr : args.root_size <;>
      cases hv : args.verity <;> simp [loadArgsFormatResolution, hv, hf, hr]

/-! ## Resource-scope trace semantics for build_image
(src/mkosi/__init__.py lines 3442-3509, 499-516, 663-685, 743-772, 805-831)

The nested context managers of build_image are modelled as a small scope
language.  `exec` produces the sequence of resource events a run emits,
given an oracle saying which external commands fail (raise): a failing
step aborts the remaining statements of its suite, a failing acquisition
acquires nothing and runs no exit, and finally-exits run even when the
body raised (Python try/finally semantics). -/

/-- Resource events of a build pass.  `step n` numbers the non-resource
pipeline statements in source order. -/
inductive Ev where
  | attachLoopback
  | detachLoopback
  | luksOpenRoot
  | luksOpenHome
  | luksOpenSrv
  | luksCloseRoot
  | luksCloseHome
  | luksCloseSrv
  | mountImage
  | umountImage
  | mountCache
  | umountCache
  | step (n : Nat)
deriving DecidableEq, Repr

/-- The release event paired with an acquisition event. -/
def relEv : Ev → Option Ev
  | .attachLoopback => some .detachLoopback
  | .luksOpenRoot => some .luksCloseRoot
  | .luksOpenHome => some .luksCloseHome
  | .luksOpenSrv => some .luksCloseSrv
  | .mountImage => some .umountImage
  | .mountCache => some .umountCache
  | _ => none

/-- The release of an acquisition (identity on non-acquisitions). -/
def relEvD (e : Ev) : Ev := (relEv e).getD e

/-- Is this event a resource acquisition? -/
def isAcquire (e : Ev) : Bool := (relEv e).isSome

/-- Is this event a resource release? -/
def isRelease : Ev → Bool
  | .detachLoopback | .luksCloseRoot | .luksCloseHome | .luksCloseSrv
  | .umountImage | .umountCache => true
  | _ => false

/-- A LUKS open event? -/
def isLuksOpen : Ev → Bool
  | .luksOpenRoot | .luksOpenHome | .luksOpenSrv => true
  | _ => false

/-- A LUKS close event? -/
def isLuksClose : Ev → Bool
  | .luksCloseRoot | .luksCloseHome | .luksCloseSrv => true
  | _ => false

/-- Scope programs: plain steps, sequencing, and a with/try-finally scope
whose exits run whenever its body ran. -/
inductive Prog where
  | skip
  | act (e : Ev)
  | seq (a b : Prog)
  | scope (enter : Ev) (body : Prog) (exits : List Ev)

/-- Run a program against a failure oracle, returning the event trace and
whether the run completed without an exception. -/
def exec (fails : Ev → Bool) : Prog → List Ev × Bool
  | .skip => ([], true)
  | .act e => ([e], !fails e)
  | .seq a b =>
    if (exec fails a).2 then
      ((exec fails a).1 ++ (exec fails b).1, (exec fails b).2)
    else exec fails a
  | .scope enter body exits =>
    if fails enter then ([], false)
    else (enter :: (exec fails body).1 ++ exits,
          (exec fails body).2 && exits.all fun e => !fails e)

/-- Replay a trace against a stack of held resources: acquisitions push,
a release must match the most recently acquired still-held resource and
pops it; `none` flags a LIFO violation. -/
def replay : List Ev → List Ev → Option (List Ev)
  | [], st => some st
  | e :: tr, st =>
    if isAcquire e then replay tr (e :: st)
    else if isRelease e then
      match st with
      | a :: st2 => if relEv a = some e then replay tr st2 else none
      | [] => none
    else replay tr st

/-- Well-scoped programs: plain steps are neither acquisitions nor
releases, and every scope's exit list is exactly the release paired with
its acquisition. -/
inductive ScopedWF : Prog → Prop where
  | skip : ScopedWF .skip
  | act (e : Ev) (h1 : isAcquire e = false) (h2 : isRelease e = false) :
      ScopedWF (.act e)
  | seq (a b : Prog) : ScopedWF a → ScopedWF b → ScopedWF (.seq a b)
  | scope (e r : Ev) (body : Prog) (hr : relEv e = some r) :
      ScopedWF body → ScopedWF (.scope e body [r])

/-- Facts about a matched acquire/release pair. -/
theorem rel_pair_facts {e r : Ev} (hr : relEv e = some r) :
    isAcquire r = false ∧ isRelease r = true ∧ isLuksClose e = false ∧
      isLuksOpen r = false ∧
      ((if isLuksClose r then ([r] : List Ev) else []) =
        (if isLuksOpen e then [relEvD e] else [])) := by
  cases e <;> simp only [relEv, Option.some.injEq, reduceCtorEq] at hr <;>
    subst hr <;> decide

/-- Events that are neither acquisitions nor releases are not LUKS
events. -/
theorem nonscope_not_luks {e : Ev} (h1 : isAcquire e = false)
    (h2 : isRelease e = false) : isLuksOpen e = false ∧ isLuksClose e = false := by
  cases e <;>
    first
      | exact absurd h1 (by decide)
      | exact absurd h2 (by decide)
      | exact ⟨rfl, rfl⟩

/-- replay distributes over concatenation. -/
theorem replay_append (t1 t2 : List Ev) (st : List Ev) :
    replay (t1 ++ t2) st = (replay t1 st).bind fun st2 => replay t2 st2 := by
  induction t1 generalizing st with
  | nil => rfl
  | cons e tr ih =>
    simp only [List.cons_append, replay]
    by_cases h1 : isAcquire e
    · simp [h1, ih]
    · by_cases h2 : isRelease e
      · simp only [h1, h2, if_false, if_true, Bool.false_eq_true]
        cases st with
        | nil => rfl
        | cons a st2 =>
          by_cases h3 : relEv a = some e
          · simp [h3, ih]
          · simp [h3]
      · simp [h1, h2, ih]

/-- Master lemma for C7, stack half: the trace of a well-scoped program
replays cleanly on any stack — every release matches the most recently
acquired still-held resource, and at the end of the run every acquired
resource has been released, whichever steps failed. -/
theorem replay_exec {p : Prog} (hp : ScopedWF p) :
    ∀ (fails : Ev → Bool) (st : List Ev), replay (exec fails p).1 st = some st := by
  induction hp with
  | skip => intro fails st; rfl
  | act e h1 h2 => intro fails st; simp [exec, replay, h1, h2]
  | seq a b ha hb iha ihb =>
    intro fails st
    by_cases hA : (exec fails a).2 <;>
      simp [exec, hA, replay_append, iha, ihb]
  | scope e r body hr hbody ih =>
    intro fails st
    obtain ⟨hra, hrr, -, -, -⟩ := rel_pair_facts hr
    have hacq : isAcquire e = true := by simp [isAcquire, hr]
    by_cases hf : fails e
    · simp [exec, hf, replay]
    · simp [exec, hf, replay, hacq, replay_append, ih, hra, hrr, hr]

/-- The events a program can mention (acquisitions, bodies, exits). -/
def evsOf : Prog → List Ev
  | .skip => []
  | .act e => [e]
  | .seq a b => evsOf a ++ evsOf b
  | .scope e body exits => e :: evsOf body ++ exits

/-- Every traced event is mentioned by the program. -/
theorem exec_subset (fails : Ev → Bool) (p : Prog) :
    ∀ e ∈ (exec fails p).1, e ∈ evsOf p := by
  induction p with
  | skip => simp [exec, evsOf]
  | act e => simp [exec, evsOf]
  | seq a b iha ihb =>
    intro e he
    by_cases hA : (exec fails a).2 <;> simp only [exec, hA, if_true, if_false,
      Bool.false_eq_true] at he
    · rcases List.mem_append.mp he with h | h
      · exact List.mem_append.mpr (Or.inl (iha e h))
      · exact List.mem_append.mpr (Or.inr (ihb e h))
    · exact List.mem_append.mpr (Or.inl (iha e he))
  | scope en body exits ih =>
    intro e he
    by_cases hf : fails en <;>
      simp only [exec, hf, if_true, if_false, Bool.false_eq_true] at he
    · exact absurd he (List.not_mem_nil e)
    · rcases List.mem_cons.mp he with h | h
      · subst h; exact List.mem_cons_self _ _
      · rcases List.mem_append.mp h with h | h
        · exact List.mem_cons_of_mem _ (List.mem_append.mpr (Or.inl (ih e h)))
        · exact List.mem_cons_of_mem _ (List.mem_append.mpr (Or.inr h))

/-- A program mentioning no LUKS events. -/
def NoLuks (p : Prog) : Prop :=
  ∀ e ∈ evsOf p, isLuksOpen e = false ∧ isLuksClose e = false

/-- The LUKS close half of C7 as a trace property: the closes that occur
are exactly the reverses of the opens that occurred. -/
def LuksPOST (p : Prog) : Prop :=
  ∀ fails : Ev → Bool,
    (exec fails p).1.filter isLuksClose =
      (((exec fails p).1.filter isLuksOpen).map relEvD).reverse

/-- A LUKS-free program satisfies the close-order property vacuously. -/
theorem luksPOST_of_noLuks {p : Prog} (h : NoLuks p) : LuksPOST p := by
  intro fails
  have hop : (exec fails p).1.filter isLuksOpen = [] :=
    List.filter_eq_nil_iff.mpr fun e he => by
      simp [(h e (exec_subset fails p e he)).1]
  have hcl : (exec fails p).1.filter isLuksClose = [] :=
    List.filter_eq_nil_iff.mpr fun e he => by
      simp [(h e (exec_subset fails p e he)).2]
  simp [hop, hcl]

/-- Sequencing with a LUKS-free first component preserves the property. -/
theorem luksPOST_seq_left {a b : Prog} (ha : NoLuks a) (hb : LuksPOST b) :
    LuksPOST (.seq a b) := by
  intro fails
  have hop : (exec fails a).1.filter isLuksOpen = [] :=
    List.filter_eq_nil_iff.mpr fun e he => by
      simp [(ha e (exec_subset fails a e he)).1]
  have hcl : (exec fails a).1.filter isLuksClose = [] :=
    List.filter_eq_nil_iff.mpr fun e he => by
      simp [(ha e (exec_subset fails a e he)).2]
  by_cases hA : (exec fails a).2 <;>
    simp [exec, hA, List.filter_append, hop, hcl, hb fails]

/-- Sequencing with a LUKS-free second component preserves the property. -/
theorem luksPOST_seq_right {a b : Prog} (ha : LuksPOST a) (hb : NoLuks b) :
    LuksPOST (.seq a b) := by
  intro fails
  have hop : (exec fails b).1.filter isLuksOpen = [] :=
    List.filter_eq_nil_iff.mpr fun e he => by
      simp [(hb e (exec_subset fails b e he)).1]
  have hcl : (exec fails b).1.filter isLuksClose = [] :=
    List.filter_eq_nil_iff.mpr fun e he => by
      simp [(hb e (exec_subset fails b e he)).2]
  by_cases hA : (exec fails a).2 <;>
    simp [exec, hA, List.filter_append, hop, hcl, ha fails]

/-- Wrapping in a matched scope preserves the close-order property: the
scope's own open (if a LUKS open) is closed last, after everything inside. -/
theorem luksPOST_scope {e r : Ev} (hr : relEv e = some r) {body : Prog}
    (hb : LuksPOST body) : LuksPOST (.scope e body [r]) := by
  intro fails
  obtain ⟨-, -, hecl, hrop, hpair⟩ := rel_pair_facts hr
  by_cases hf : fails e
  · simp [exec, hf]
  · simp only [exec, hf, if_false, Bool.false_eq_true, List.filter_cons,
      List.filter_append, hecl, hrop]
    by_cases heo : isLuksOpen e <;> by_cases hrc : isLuksClose r <;>
      simp_all [hb fails, relEvD, hr]

/-- A conditionally entered scope: context managers that degrade to a
pass-through (mount_image with no loop device, a skipped LUKS open) wrap
their body only when the condition holds. -/
def wrapScope (cond : Bool) (e : Ev) (body : Prog) : Prog :=
  if cond then .scope e body [relEvD e] else body

/-- A run of plain pipeline statements, by step number. -/
def acts : List Nat → Prog
  | [] => .skip
  | n :: ns => .seq (.act (.step n)) (acts ns)

/-- RAW_FORMATS (src/mkosi/__init__.py lines 87-93). -/
def rawFormats : List OutputFormat :=
  [.raw_ext4, .raw_btrfs, .raw_xfs, .raw_squashfs]

/-- Does luks_setup_root open a mapping (lines 625-637)?  encrypt must be
"all", the format not raw_squashfs (inserting_squashfs is false in
build_image's call), and not a build-script pass; root_partno is always
assigned once the image was partitioned. -/
def luksRootOpens (args : CommandLineArguments) (runBuildScript : Bool) : Bool :=
  args.encrypt == some "all" &&
    !(args.output_format == OutputFormat.raw_squashfs) && !runBuildScript

/-- Does luks_setup_home open a mapping (lines 639-649)?  Any encryption
mode, a home partition present, not a build-script pass. -/
def luksHomeOpens (args : CommandLineArguments) (runBuildScript : Bool) : Bool :=
  args.encrypt.isSome && (determinePartitionTable args).home_partno.isSome &&
    !runBuildScript

/-- Does luks_setup_srv open a mapping (lines 651-661)? -/
def luksSrvOpens (args : CommandLineArguments) (runBuildScript : Bool) : Bool :=
  args.encrypt.isSome && (determinePartitionTable args).srv_partno.isSome &&
    !runBuildScript

/-- luks_setup_all (lines 663-685): for directory/subvolume/tar it yields
with no opens at all; otherwise the three conditional opens nest
root-home-srv, each closed by its own finally, srv first and root last. -/
def luksSetupAllScopes (args : CommandLineArguments) (runBuildScript : Bool)
    (inner : Prog) : Prog :=
  if args.output_format == OutputFormat.directory ||
      args.output_format == OutputFormat.subvolume ||
      args.output_format == OutputFormat.tar then inner
  else
    wrapScope (luksRootOpens args runBuildScript) .luksOpenRoot
      (wrapScope (luksHomeOpens args runBuildScript) .luksOpenHome
        (wrapScope (luksSrvOpens args runBuildScript) .luksOpenSrv inner))

/-- mount_cache (lines 805-831): a scope only when a package cache path is
configured; its finally always umounts (best-effort). -/
def mountCacheScope (args : CommandLineArguments) (inner : Prog) : Prog :=
  if args.cache_path.isSome then .scope .mountCache inner [.umountCache]
  else inner

/-- The statements inside the first mount_image scope (lines 3475-3491):
prepare_tree (7), then under mount_cache the tree-population steps
reuse_cache_tree (8) through run_postinst_script (17), then
reset_machine_id (18), reset_random_seed (19), make_read_only (20). -/
def buildImagePopulate (args : CommandLineArguments) : Prog :=
  .seq (.act (.step 7))
    (.seq (mountCacheScope args (acts [8, 9, 10, 11, 12, 13, 14, 15, 16, 17]))
      (acts [18, 19, 20]))

/-- The statements inside the luks_setup_all scope (lines 3470-3505):
prepare_root/home/srv (6), the read-write mount_image scope, then
make_squashfs (21), insert_squashfs (22), make_verity (23),
patch_root_uuid (24), insert_verity (25), and the read-only mount_image
scope around install_unified_kernel (26) and secure_boot_sign (27). -/
def buildImageInsideLuks (args : CommandLineArguments) (rawPresent : Bool) : Prog :=
  .seq (acts [6])
    (.seq (wrapScope rawPresent .mountImage (buildImagePopulate args))
      (.seq (acts [21, 22, 23, 24, 25])
        (wrapScope rawPresent .mountImage (acts [26, 27]))))

/-- build_image (lines 3442-3509) as a scope program: the early returns of
lines 3446-3447 and 3452-3454, then the loopback scope (present only for
raw formats, since create_image returns None otherwise) around
prepare_swap (1), prepare_esp (2), luks_format_root/home/srv (3-5) and the
LUKS scopes, with make_tar (28) outside the loopback scope. -/
def buildImageProg (args : CommandLineArguments)
    (runBuildScript forCache cachedFound : Bool) : Prog :=
  if args.build_script.isNone && runBuildScript then .skip
  else if forCache && cachedFound then .skip
  else
    .seq (wrapScope (rawFormats.contains args.output_format) .attachLoopback
        (.seq (acts [1, 2, 3, 4, 5])
          (luksSetupAllScopes args runBuildScript
            (buildImageInsideLuks args (rawFormats.contains args.output_format)))))
      (acts [28])

/-- Step runs are well-scoped. -/
theorem scopedWF_acts (ns : List Nat) : ScopedWF (acts ns) := by
  induction ns with
  | nil => exact .skip
  | cons n ns ih => exact .seq _ _ (.act _ rfl rfl) ih

/-- Conditional scopes over matched pairs are well-scoped. -/
theorem scopedWF_wrapScope (cond : Bool) (e r : Ev) (hr : relEv e = some r)
    {body : Prog} (hb : ScopedWF body) : ScopedWF (wrapScope cond e body) := by
  cases cond with
  | false => simpa [wrapScope] using hb
  | true =>
    simp only [wrapScope, if_true]
    rw [show relEvD e = r by simp [relEvD, hr]]
    exact .scope e r body hr hb

/-- The package-cache scope is well-scoped. -/
theorem scopedWF_mountCacheScope (args : CommandLineArguments) {inner : Prog}
    (hb : ScopedWF inner) : ScopedWF (mountCacheScope args inner) := by
  unfold mountCacheScope
  split
  · exact .scope _ _ _ rfl hb
  · exact hb

/-- The LUKS scopes are well-scoped. -/
theorem scopedWF_luksSetupAllScopes (args : CommandLineArguments)
    (runBuildScript : Bool) {inner : Prog} (hb : ScopedWF inner) :
    ScopedWF (luksSetupAllScopes args runBuildScript inner) := by
  unfold luksSetupAllScopes
  split
  · exact hb
  · exact scopedWF_wrapScope _ .luksOpenRoot .luksCloseRoot rfl
      (scopedWF_wrapScope _ .luksOpenHome .luksCloseHome rfl
        (scopedWF_wrapScope _ .luksOpenSrv .luksCloseSrv rfl hb))

/-- build_image's scope program is well-scoped. -/
theorem scopedWF_buildImage (args : CommandLineArguments)
    (runBuildScript forCache cachedFound : Bool) :
    ScopedWF (buildImageProg args runBuildScript forCache cachedFound) := by
  unfold buildImageProg
  split
  · exact .skip
  split
  · exact .skip
  refine .seq _ _ (scopedWF_wrapScope _ .attachLoopback .detachLoopback rfl
    (.seq _ _ (scopedWF_acts _) (scopedWF_luksSetupAllScopes _ _ ?_)))
    (scopedWF_acts _)
  refine .seq _ _ (scopedWF_acts _) (.seq _ _
    (scopedWF_wrapScope _ .mountImage .umountImage rfl ?_)
    (.seq _ _ (scopedWF_acts _)
      (scopedWF_wrapScope _ .mountImage .umountImage rfl (scopedWF_acts _))))
  exact .seq _ _ (.act _ rfl rfl) (.seq _ _ (scopedWF_mountCacheScope _
    (scopedWF_acts _)) (scopedWF_acts _))

/-- Step runs mention no LUKS events. -/
theorem noLuks_acts (ns : List Nat) : NoLuks (acts ns) := by
  induction ns with
  | nil => intro e he; simp [acts, evsOf] at he
  | cons n ns ih =>
    intro e he
    simp only [acts, evsOf, List.mem_append, List.mem_singleton] at he
    rcases he with h | h
    · subst h; exact ⟨rfl, rfl⟩
    · exact ih e h

/-- Sequencing preserves LUKS-freeness. -/
theorem noLuks_seq {a b : Prog} (ha : NoLuks a) (hb : NoLuks b) :
    NoLuks (.seq a b) := by
  intro e he
  rcases List.mem_append.mp he with h | h
  · exact ha e h
  · exact hb e h

/-- A conditional scope over non-LUKS events preserves LUKS-freeness. -/
theorem noLuks_wrapScope (cond : Bool) (e : Ev)
    (h1 : isLuksOpen e = false ∧ isLuksClose e = false)
    (h2 : isLuksOpen (relEvD e) = false ∧ isLuksClose (relEvD e) = false)
    {body : Prog} (hb : NoLuks body) : NoLuks (wrapScope cond e body) := by
  cases cond with
  | false => simpa [wrapScope] using hb
  | true =>
    intro x hx
    simp only [wrapScope, if_true, evsOf, List.mem_cons, List.mem_append,
      List.mem_singleton] at hx
    rcases hx with (h | h) | h | h
    · subst h; exact h1
    · exact hb x h
    · subst h; exact h2
    · simp at h


/-- The package-cache scope preserves LUKS-freeness. -/
theorem noLuks_mountCacheScope (args : CommandLineArguments) {inner : Prog}
    (hb : NoLuks inner) : NoLuks (mountCacheScope args inner) := by
  unfold mountCacheScope
  split
  · intro x hx
    simp only [evsOf, List.mem_cons, List.mem_append, List.mem_singleton] at hx
    rcases hx with (h | h) | h | h
    · subst h; exact ⟨rfl, rfl⟩
    · exact hb x h
    · subst h; exact ⟨rfl, rfl⟩
    · simp at h
  · exact hb

/-- Everything that runs inside the LUKS scopes is LUKS-free: the only
LUKS events of a build pass are the opens/closes of luks_setup_all. -/
theorem noLuks_buildImageInsideLuks (args : CommandLineArguments)
    (rawPresent : Bool) : NoLuks (buildImageInsideLuks args rawPresent) := by
  refine noLuks_seq (noLuks_acts _) (noLuks_seq (noLuks_wrapScope _ .mountImage
    ⟨rfl, rfl⟩ ⟨rfl, rfl⟩ ?_) (noLuks_seq (noLuks_acts _) (noLuks_wrapScope _
    .mountImage ⟨rfl, rfl⟩ ⟨rfl, rfl⟩ (noLuks_acts _))))
  exact noLuks_seq (fun e he => by
      simp only [evsOf, List.mem_singleton] at he; subst he; exact ⟨rfl, rfl⟩)
    (noLuks_seq (noLuks_mountCacheScope _ (noLuks_acts _)) (noLuks_acts _))

/-- A conditional scope over a matched pair preserves the close-order
property. -/
theorem luksPOST_wrapScope (cond : Bool) (e r : Ev) (hr : relEv e = some r)
    {body : Prog} (hb : LuksPOST body) : LuksPOST (wrapScope cond e body) := by
  cases cond with
  | false => simpa [wrapScope] using hb
  | true =>
    simp only [wrapScope, if_true]
    rw [show relEvD e = r by simp [relEvD, hr]]
    exact luksPOST_scope hr hb

/-- The LUKS scopes of luks_setup_all close in reverse order of their
opens, around any LUKS-free body. -/
theorem luksPOST_luksSetupAllScopes (args : CommandLineArguments)
    (runBuildScript : Bool) {inner : Prog} (hinner : NoLuks inner) :
    LuksPOST (luksSetupAllScopes args runBuildScript inner) := by
  unfold luksSetupAllScopes
  split
  · exact luksPOST_of_noLuks hinner
  · exact luksPOST_wrapScope _ .luksOpenRoot .luksCloseRoot rfl
      (luksPOST_wrapScope _ .luksOpenHome .luksCloseHome rfl
        (luksPOST_wrapScope _ .luksOpenSrv .luksCloseSrv rfl
          (luksPOST_of_noLuks hinner)))

/-- build_image's scope program satisfies the LUKS close-order property. -/
theorem luksPOST_buildImage (args : CommandLineArguments)
    (runBuildScript forCache cachedFound : Bool) :
    LuksPOST (buildImageProg args runBuildScript forCache cachedFound) := by
  unfold buildImageProg
  split
  · intro fails; rfl
  split
  · intro fails; rfl
  exact luksPOST_seq_right (luksPOST_wrapScope _ .attachLoopback .detachLoopback
    rfl (luksPOST_seq_left (noLuks_acts _) (luksPOST_luksSetupAllScopes _ _
      (noLuks_buildImageInsideLuks _ _)))) (noLuks_acts _)

/-- A fully-featured concrete configuration: encrypted raw ext4 image with
home and srv partitions and a package cache. -/
def fullArgs : CommandLineArguments :=
  { output_format := .raw_ext4
  , encrypt := some "all"
  , home_size := some (1024 * 1024 * 1024)
  , srv_size := some (1024 * 1024 * 1024)
  , cache_path := some "mkosi.cache"
  , build_script := some "mkosi.build" }

/-- C7: in every build pass composed by build_image, for every failure
pattern of the underlying commands, (a) the trace of resource events is
properly bracketed — each release releases the most recently acquired
still-held resource, and at the end of the pass every acquired resource
(LUKS mappings, mounts, the loop device) has been released, even when an
inner step raised — and (b) the LUKS closes that occur are exactly the
reverses of the LUKS opens that occurred; on the concrete full
configuration with no failures that order is open root, home, srv then
close srv, home, root. -/
theorem luks_teardown_lifo (args : CommandLineArguments)
    (runBuildScript forCache cachedFound : Bool) (fails : Ev → Bool) :
    replay (exec fails (buildImageProg args runBuildScript forCache
      cachedFound)).1 [] = some [] ∧
    (exec fails (buildImageProg args runBuildScript forCache cachedFound)).1.filter
        isLuksClose =
      (((exec fails (buildImageProg args runBuildScript forCache
        cachedFound)).1.filter isLuksOpen).map relEvD).reverse ∧
    (exec (fun _ => false) (buildImageProg fullArgs false false false)).1.filter
        (fun e => isLuksOpen e || isLuksClose e) =
      [.luksOpenRoot, .luksOpenHome, .luksOpenSrv,
       .luksCloseSrv, .luksCloseHome, .luksCloseRoot] :=
  ⟨replay_exec (scopedWF_buildImage args runBuildScript forCache cachedFound)
      fails [],
   luksPOST_buildImage args runBuildScript forCache cachedFound fails,
   by decide⟩

/-! ## attach_image_loopback and umount
(src/mkosi/__init__.py lines 499-516 and 833-835) -/

/-- attach_image_loopback (lines 499-516) with a given body: with raw None
it yields with no scope at all; otherwise losetup --find runs before the
try (a failure there attaches nothing), and the finally always runs
losetup --detach with check=True, whose failure raises.  The result is
the event trace and whether the scope completed without an exception. -/
def attachImageLoopback (rawSome attachFails detachFails : Bool)
    (body : List Ev × Bool) : List Ev × Bool :=
  if !rawSome then body
  else if attachFails then ([], false)
  else (Ev.attachLoopback :: body.1 ++ [Ev.detachLoopback],
        body.2 && !detachFails)

/-- umount (lines 833-835): run() without check=True, so a failing umount
is ignored and teardown continues normally whatever the command did. -/
def umountCall (_fails : Bool) : Bool := true

/-- C9 as stated is false on the code: a run whose body succeeds and whose
detach command fails does raise (losetup --detach runs with check=True),
even though the detach was attempted. -/
theorem detach_failure_is_fatal :
    (attachImageLoopback true false true ([Ev.step 1], true)).2 ≠ true ∧
    Ev.detachLoopback ∈ (attachImageLoopback true false true ([Ev.step 1], true)).1 := by
  decide

/-- C9 amended: on scope exit the detach is unconditionally attempted,
also when the body failed, but a failure of the detach command itself
propagates as an exception (it is not swallowed); umount failures during
teardown are swallowed and never escalated. -/
theorem detach_always_attempted_but_fatal (detachFails bodyOk f : Bool)
    (tr : List Ev) :
    attachImageLoopback true false detachFails (tr, bodyOk) =
      (Ev.attachLoopback :: tr ++ [Ev.detachLoopback], bodyOk && !detachFails) ∧
    umountCall f = true := by
  simp [attachImageLoopback, umountCall]

end Mkosi
